import Mathlib

/-!
Verification development for the `trop3n/analytics` repository.

The repository is a set of Python scripts that poll the Vimeo REST API,
aggregate paged listings into one sequence, build a tabular report and
email it.  This file gives a shallow embedding of the code that the
claims concern:

* `Totalplays.*`   — `analytics_totalplays.py` (cutoff-aware pagination in
  `get_videos_from_folder`, the fallback `get_simple_video_stats`, the
  report-row construction and the `__main__` report/email decision);
* `AnalyticsScript.*` — `analytics.py` (the cutoff-free
  `get_videos_from_folder`, the effective, second definition of
  `get_video_analytics` with its page-count loop and its 403 branch, the
  DataFrame column fill of `__main__`, and its report/email decision);
* `Livestream.*`   — `src/analytics/analytics.py` (`get_peak_viewers`).

Modelling conventions:
* ISO-8601 creation timestamps are modelled as already-parsed integers
  (`created : Int`); a larger value is a later (newer) instant.
* One HTTP round trip is a `FetchOutcome`: either a decoded response
  (status code, decoded `data` array, pagination metadata) or `exn`, an
  exception raised by the request or by JSON decoding, which the Python
  `try`/`except` converts into "stop and keep what was collected".
* A provider is a function from page number to outcome.  `ofOutcomes`
  turns a finite list of scripted outcomes into such a provider; pages
  beyond the script decode as an empty final page.
* The `while` loops are embedded with explicit fuel; `none` means the
  loop is still running after `fuel` iterations, so `∀ fuel, … = none`
  states non-termination.
* Diagnostics printed by `get_video_analytics` are modelled as an `ALog`
  trace returned next to the data, so that the distinct 403 message can
  be distinguished from the generic error message.
-/

/-- A video item as decoded from the listing endpoints: an identifier and
its (already parsed) creation timestamp. -/
structure Video where
  id : Nat
  created : Int
deriving DecidableEq, Repr

/-- One decoded page of a video listing: HTTP status, the `data` array and
whether the `paging` object carries a `next` link. -/
structure PageResp where
  status : Nat
  data : List Video
  hasNext : Bool
deriving DecidableEq, Repr

/-- Outcome of one page request in the video-listing fetchers: a decoded
response, or an exception raised by the request or the JSON decode. -/
inductive FetchOutcome where
  | resp (r : PageResp)
  | exn
deriving DecidableEq, Repr

/-- A provider that serves the finite script `L` of outcomes for pages
1, 2, …; pages past the end of the script decode as an empty last page. -/
def ofOutcomes (L : List FetchOutcome) (n : Nat) : FetchOutcome :=
  match L.drop (n - 1) with
  | [] => .resp ⟨200, [], false⟩
  | o :: _ => o

/-- The timestamp of `page_videos[-1]`, the last item of a page (0 is a
dummy for the empty page, on which the code never reads it). -/
def lastCreated : List Video → Int
  | [] => 0
  | [v] => v.created
  | _ :: v :: rest => lastCreated (v :: rest)

/-- A well-formed mid-stream page response: HTTP 200 with a `next` link. -/
def goodOutcome (d : List Video) : FetchOutcome :=
  .resp ⟨200, d, true⟩

/-- An outcome on which the fetchers stop with an error: an exception or a
non-2xx (here: non-200) status. -/
def isBadOutcome : FetchOutcome → Bool
  | .exn => true
  | .resp r => decide (r.status ≠ 200)

/-- The ordering contract the cutoff-aware fetcher relies on: the listing
is sorted by creation time, newest first. -/
def sortedDesc (l : List Video) : Prop :=
  l.Pairwise (fun a b => b.created ≤ a.created)

instance (l : List Video) : Decidable (sortedDesc l) :=
  inferInstanceAs (Decidable (l.Pairwise _))

/-- A sequence of items split into pages the way a well-behaved provider
serves it: every page an HTTP 200 response whose `paging.next` link is
present on every page except the last. -/
def mkGoodOutcomes : List (List Video) → List FetchOutcome
  | [] => []
  | [p] => [.resp ⟨200, p, false⟩]
  | p :: q :: rest => .resp ⟨200, p, true⟩ :: mkGoodOutcomes (q :: rest)

namespace Totalplays

/-- The `while True` loop of `get_videos_from_folder` in
`analytics_totalplays.py` (lines 52–79), with explicit fuel.  Per
iteration: request the page; on exception stop with the collected items;
on non-200 stop; on an empty `data` array stop; otherwise extend
`videos`, stop if the last item of the page is older than the cutoff,
else continue to the next page exactly when a `next` link is present. -/
def fetchLoop (provider : Nat → FetchOutcome) (cutoff : Int) :
    Nat → Nat → List Video → Option (List Video)
  | 0, _, _ => none
  | fuel + 1, page, videos =>
    match provider page with
    | .exn => some videos
    | .resp r =>
      if r.status = 200 then
        if r.data.isEmpty then some videos
        else
          let videos2 := videos ++ r.data
          if lastCreated r.data < cutoff then some videos2
          else if r.hasNext then fetchLoop provider cutoff fuel (page + 1) videos2
          else some videos2
      else some videos

/-- `get_videos_from_folder(client, folder_id, cutoff_date)` of
`analytics_totalplays.py`: run the pagination loop from page 1 with an
empty accumulator.  `none` means the loop has not finished within
`fuel` iterations. -/
def get_videos_from_folder (provider : Nat → FetchOutcome) (cutoff : Int)
    (fuel : Nat) : Option (List Video) :=
  fetchLoop provider cutoff fuel 1 []

/-- Structural restatement of the loop over the finite outcome script it
consumes: what `get_videos_from_folder` returns when the provider serves
exactly this list of outcomes. -/
def fetchPages (cutoff : Int) : List FetchOutcome → List Video
  | [] => []
  | .exn :: _ => []
  | .resp r :: rest =>
    if r.status = 200 then
      if r.data.isEmpty then []
      else
        r.data ++
          (if lastCreated r.data < cutoff then []
           else if r.hasNext then fetchPages cutoff rest else [])
    else []

/-- The caller's filter in `__main__` (lines 144–147): keep the videos
whose creation time is strictly later than the cutoff. -/
def recent_videos (cutoff : Int) (videos : List Video) : List Video :=
  videos.filter (fun v => cutoff < v.created)

end Totalplays

namespace AnalyticsScript

/-- The `while True` loop of `get_videos_from_folder` in `analytics.py`
(lines 62–82): no cutoff and no empty-page check; extend `videos` with the
page's `data` array (possibly empty) and continue exactly when a `next`
link is present; stop on a non-200 status or on an exception. -/
def videosLoop (provider : Nat → FetchOutcome) :
    Nat → Nat → List Video → Option (List Video)
  | 0, _, _ => none
  | fuel + 1, page, videos =>
    match provider page with
    | .exn => some videos
    | .resp r =>
      if r.status = 200 then
        let videos2 := videos ++ r.data
        if r.hasNext then videosLoop provider fuel (page + 1) videos2
        else some videos2
      else some videos

/-- `get_videos_from_folder(client, folder_id)` of `analytics.py`: run the
pagination loop from page 1 with an empty accumulator. -/
def get_videos_from_folder (provider : Nat → FetchOutcome) (fuel : Nat) :
    Option (List Video) :=
  videosLoop provider fuel 1 []

/-- Structural restatement of `AnalyticsScript.videosLoop` over the finite
outcome script the provider serves. -/
def videoPages : List FetchOutcome → List Video
  | [] => []
  | .exn :: _ => []
  | .resp r :: rest =>
    if r.status = 200 then
      r.data ++ (if r.hasNext then videoPages rest else [])
    else []

end AnalyticsScript

/-- A malformed provider: every page request decodes to the same non-empty
HTTP 200 page claiming a further page; its item is newer than cutoff 0. -/
def malformedProvider : Nat → FetchOutcome :=
  fun _ => .resp ⟨200, [⟨0, 1⟩], true⟩

/-- The cutoff-aware fetcher of `analytics_totalplays.py` never returns on
this provider and cutoff, whatever the iteration budget. -/
def runsForeverTotalplays (provider : Nat → FetchOutcome) (cutoff : Int) : Prop :=
  ∀ fuel, Totalplays.get_videos_from_folder provider cutoff fuel = none

/-- The cutoff-free fetcher of `analytics.py` never returns on this
provider, whatever the iteration budget. -/
def runsForeverAnalytics (provider : Nat → FetchOutcome) : Prop :=
  ∀ fuel, AnalyticsScript.get_videos_from_folder provider fuel = none

/-- A scalar JSON value: string, number, an (already parsed) timestamp
string, or JSON null. -/
inductive JLeaf where
  | str (s : String)
  | num (n : Int)
  | time (t : Int)
  | null
deriving DecidableEq, Repr

/-- A JSON value as the scripts consume it: a scalar, or a one-level
nested object such as the `stats` field of a video. -/
inductive JValue where
  | leaf (v : JLeaf)
  | obj (fields : List (String × JLeaf))
deriving DecidableEq, Repr

/-- A flat record decoded from a JSON object: an association list from
field names to values (an analytics row, or a video's simple stats). -/
abbrev ARecord : Type := List (String × JValue)

/-- One decoded page of the metrics endpoint: HTTP status, the `data`
array of analytics records and the optional `paging.pages` total. -/
structure APageResp where
  status : Nat
  data : List ARecord
  pages : Option Nat
deriving DecidableEq, Repr

/-- Outcome of one metrics-page request: a decoded response or an
exception raised during the request. -/
inductive AOutcome where
  | resp (r : APageResp)
  | exn
deriving DecidableEq, Repr

/-- A provider serving the finite script `L` of metrics outcomes for
pages 1, 2, …; pages beyond the script decode as an empty page. -/
def ofAOutcomes (L : List AOutcome) (n : Nat) : AOutcome :=
  match L.drop (n - 1) with
  | [] => .resp ⟨200, [], none⟩
  | o :: _ => o

/-- A well-formed mid-stream metrics page: HTTP 200, the given records,
and pagination metadata reporting `P` total pages. -/
def goodAOutcome (P : Nat) (d : List ARecord) : AOutcome :=
  .resp ⟨200, d, some P⟩

/-- The diagnostics `get_video_analytics` prints, one constructor per
distinct `print` in its loop: the per-page progress line, the
no-data/end-of-data line, the distinct `Access Denied (403)` message, the
generic fetch-error message with its status code, and the
unexpected-exception message. -/
inductive ALog where
  | fetchedPage (page total : Nat)
  | noData (page : Nat)
  | accessDenied
  | fetchError (status : Nat)
  | exnError
deriving DecidableEq, Repr

namespace AnalyticsScript

/-- The `while page <= total_pages` loop of the effective (second)
`get_video_analytics` in `analytics.py` (lines 216–244), with explicit
fuel.  Per iteration: request the page; on a 200 response with a
non-empty `data` array extend the accumulator, set `total_pages` from
`paging.pages` when present (else to the current page), log progress and
continue; on empty data stop; on 403 stop with the distinct
access-denied diagnostic; on any other status stop with the generic
error diagnostic; on an exception stop with the exception diagnostic. -/
def analyticsLoop (provider : Nat → AOutcome) :
    Nat → Nat → Nat → List ARecord → List ALog → Option (List ARecord × List ALog)
  | 0, _, _, _, _ => none
  | fuel + 1, page, total, acc, logs =>
    if page ≤ total then
      match provider page with
      | .exn => some (acc, logs ++ [.exnError])
      | .resp r =>
        if r.status = 200 then
          if r.data.isEmpty then some (acc, logs ++ [.noData page])
          else
            let total2 := match r.pages with
              | some p => p
              | none => page
            analyticsLoop provider fuel (page + 1) total2 (acc ++ r.data)
              (logs ++ [.fetchedPage page total2])
        else if r.status = 403 then some (acc, logs ++ [.accessDenied])
        else some (acc, logs ++ [.fetchError r.status])
    else some (acc, logs)

/-- `get_video_analytics(client, video_id, start_date, end_date,
dimensions, metrics)` of `analytics.py` (the second, effective
definition): run the metrics pagination loop from page 1 with
`total_pages` initialised to 1, an empty accumulator and an empty
diagnostic trace. -/
def get_video_analytics (provider : Nat → AOutcome) (fuel : Nat) :
    Option (List ARecord × List ALog) :=
  analyticsLoop provider fuel 1 1 [] []

end AnalyticsScript

/-- Outcome of the single-video `GET /videos/{video_id}` request used by
the fallback path of `analytics_totalplays.py`: a decoded response (HTTP
status and decoded JSON body) or an exception. -/
inductive SimpleOutcome where
  | resp (status : Nat) (body : ARecord)
  | exn
deriving DecidableEq, Repr

namespace Totalplays

/-- `get_simple_video_stats(client, video_id)` of
`analytics_totalplays.py` (lines 82–100): return the decoded JSON body on
a 200 response, `None` on any other status, and `None` when the request
or the decode raises. -/
def get_simple_video_stats : SimpleOutcome → Option ARecord
  | .resp status body => if status = 200 then some body else none
  | .exn => none

/-- One row of the fallback report, the dict literal appended to
`report_data` in `__main__` (lines 157–163): the four keys `Video Name`,
`Total Plays`, `Upload Date` and `Link` are always present in the row.
Date formatting is abstracted to the parsed timestamp value. -/
structure ReportRow where
  videoName : JValue
  totalPlays : JLeaf
  uploadDate : Int
  link : JValue
deriving DecidableEq, Repr

/-- The row construction of `__main__` (lines 157–163) on a fetched stats
dict: `Video Name` is `stats_data.get('name', 'N/A')`, `Total Plays` is
`stats_data.get('stats', {}).get('plays', 0)`, `Upload Date` parses
`stats_data['created_time']` (a missing or unparseable value raises in
Python, modelled as `none`, as is a non-object `stats` value, on which
`.get` would raise `AttributeError`), and `Link` is
`stats_data.get('link', 'N/A')`. -/
def mkReportRow (stats_data : ARecord) : Option ReportRow :=
  match List.lookup "created_time" stats_data with
  | some (JValue.leaf (JLeaf.time t)) =>
    match List.lookup "stats" stats_data with
    | some (JValue.leaf _) => none
    | some (JValue.obj fs) =>
      some ⟨(List.lookup "name" stats_data).getD (JValue.leaf (JLeaf.str "N/A")),
            (List.lookup "plays" fs).getD (JLeaf.num 0), t,
            (List.lookup "link" stats_data).getD (JValue.leaf (JLeaf.str "N/A"))⟩
    | none =>
      some ⟨(List.lookup "name" stats_data).getD (JValue.leaf (JLeaf.str "N/A")),
            JLeaf.num 0, t,
            (List.lookup "link" stats_data).getD (JValue.leaf (JLeaf.str "N/A"))⟩
  | _ => none

/-- True when the `stats` field, if present at all, is a JSON object, so
that `.get('plays', 0)` does not raise. -/
def statsWellFormed (stats_data : ARecord) : Bool :=
  match List.lookup "stats" stats_data with
  | some (JValue.leaf _) => false
  | _ => true

end Totalplays

/-- The externally observable report/email actions of a script run. -/
inductive RunEvent where
  | noDataMsg
  | reportWritten
  | reportEmail
  | reportError
  | crashed
deriving DecidableEq, Repr

/-- The report/email decision of `__main__` in `analytics_totalplays.py`
(lines 166–192): with an empty `report_data` only the `No data collected`
message is printed; otherwise the spreadsheet is written and the report
email sent, and a failure inside the `try` (modelled by `excelOk =
false`) is caught and reported without sending an email. -/
def Totalplays.mainEvents (report_data : List Totalplays.ReportRow)
    (excelOk : Bool) : List RunEvent :=
  if report_data.isEmpty then [.noDataMsg]
  else if excelOk then [.reportWritten, .reportEmail] else [.reportError]

/-- The report/email decision of `__main__` in `analytics.py` (lines
325–358): with an empty `analytics_data` only the no-data message is
printed and no email is sent.  On the non-empty branch the script always
crashes with an uncaught `NameError` before writing anything:
`output_dir` is used on line 338 but first assigned on line 341 (and line
343 misspells `full_report_path`), so no report and no email happen
there either. -/
def AnalyticsScript.mainEvents (analytics_data : List ARecord) : List RunEvent :=
  if analytics_data.isEmpty then [.noDataMsg] else [.crashed]

namespace AnalyticsScript

/-- The configured dimension columns (`analytics.py` lines 35 and 144). -/
def DIMENSIONS : List String :=
  ["date", "video_id", "country", "device_type"]

/-- The configured metric columns (`analytics.py` lines 36 and 148). -/
def METRICS : List String :=
  ["plays", "finishes", "total_watch_time", "impressions", "unique_viewers"]

/-- First-seen-order deduplication, tracking the names already seen. -/
def dedupAux : List String → List String → List String
  | [], _ => []
  | k :: ks, seen =>
    if k ∈ seen then dedupAux ks seen else k :: dedupAux ks (k :: seen)

/-- Union of key names in first-seen order, the column set
`pd.DataFrame` derives from a list of dicts. -/
def dedupKeys (l : List String) : List String :=
  dedupAux l []

/-- The model of the pandas DataFrame the script builds: the column
names, and the underlying records as rows. -/
structure DataFrame where
  cols : List String
  rows : List ARecord
deriving DecidableEq, Repr

/-- `pd.DataFrame(analytics_data)`: columns are the union of the
records' keys in first-seen order; a row's missing cells read as the NaN
marker (modelled by JSON null in `getCell`). -/
def mkDataFrame (records : List ARecord) : DataFrame :=
  ⟨dedupKeys ((records.map (fun r => r.map Prod.fst)).flatten), records⟩

/-- `df[col] = None` guarded by `col not in df.columns`: append the
column when absent; its cells read as the null marker. -/
def addColumn (df : DataFrame) (c : String) : DataFrame :=
  if c ∈ df.cols then df else ⟨df.cols ++ [c], df.rows⟩

/-- The column-fill loop of `__main__` (lines 330–332): for each
configured dimension and metric column, add it when missing. -/
def fillColumns (df : DataFrame) : DataFrame :=
  (DIMENSIONS ++ METRICS).foldl addColumn df

/-- Reading one cell of the table: defined (as the stored value, or the
null/NaN marker when the row has no such key) exactly when the column
exists in the table. -/
def getCell (df : DataFrame) (row : ARecord) (c : String) : Option JValue :=
  if c ∈ df.cols then some ((List.lookup c row).getD (JValue.leaf JLeaf.null))
  else none

end AnalyticsScript

namespace Livestream

/-- One point of a concurrent-viewers time series, as assembled by
`fetch_vimeo_livestream_data` in `src/analytics/analytics.py`. -/
structure DataPoint where
  timestamp : Int
  concurrent_viewers : Int
deriving DecidableEq, Repr

/-- Python's built-in `max` over a list of numbers (the empty case is
unreachable in `get_peak_viewers`, which guards on emptiness first). -/
def listMax : List Int → Int
  | [] => 0
  | x :: xs => xs.foldl max x

/-- `get_peak_viewers(viewer_data)` of `src/analytics/analytics.py`
(lines 130–145): 0 on an empty list, else the maximum of the
`concurrent_viewers` values. -/
def get_peak_viewers (viewer_data : List DataPoint) : Int :=
  if viewer_data.isEmpty then 0
  else listMax (viewer_data.map (fun d => d.concurrent_viewers))

end Livestream

theorem Totalplays.fetchLoop_ofOutcomes (C : Int) :
    ∀ (l L : List FetchOutcome) (k : Nat) (acc : List Video) (fuel : Nat),
      L.drop k = l → l.length < fuel →
      Totalplays.fetchLoop (ofOutcomes L) C fuel (k + 1) acc =
        some (acc ++ Totalplays.fetchPages C l) := by
  intro l
  induction l with
  | nil =>
    intro L k acc fuel hdrop hfuel
    cases fuel with
    | zero => omega
    | succ fuel =>
      have hprov : ofOutcomes L (k + 1) = .resp ⟨200, [], false⟩ := by
        simp [ofOutcomes, hdrop]
      simp [Totalplays.fetchLoop, hprov, Totalplays.fetchPages]
  | cons o t ih =>
    intro L k acc fuel hdrop hfuel
    cases fuel with
    | zero => simp at hfuel
    | succ fuel =>
      have hprov : ofOutcomes L (k + 1) = o := by
        simp [ofOutcomes, hdrop]
      have hdrop2 : L.drop (k + 1) = t := by
        have : (L.drop k).tail = t := by rw [hdrop]; rfl
        rwa [List.tail_drop] at this
      cases o with
      | exn => simp [Totalplays.fetchLoop, hprov, Totalplays.fetchPages]
      | resp r =>
        by_cases h200 : r.status = 200
        · by_cases hemp : r.data.isEmpty
          · simp [Totalplays.fetchLoop, hprov, Totalplays.fetchPages, h200, hemp]
          · by_cases hold : lastCreated r.data < C
            · simp [Totalplays.fetchLoop, hprov, Totalplays.fetchPages, h200, hemp, hold]
            · by_cases hnext : r.hasNext
              · have hrec := ih L (k + 1) (acc ++ r.data) fuel hdrop2 (by simpa using hfuel)
                simp [Totalplays.fetchLoop, hprov, Totalplays.fetchPages, h200, hemp, hold,
                  hnext, hrec, List.append_assoc]
              · simp [Totalplays.fetchLoop, hprov, Totalplays.fetchPages, h200, hemp, hold,
                  hnext]
        · simp [Totalplays.fetchLoop, hprov, Totalplays.fetchPages, h200]

theorem length_mkGoodOutcomes : ∀ pages : List (List Video),
    (mkGoodOutcomes pages).length = pages.length
  | [] => rfl
  | [_] => rfl
  | _ :: q :: rest => by
    simpa [mkGoodOutcomes] using length_mkGoodOutcomes (q :: rest)

theorem lastCreated_mem : ∀ p : List Video, p ≠ [] →
    ∃ v ∈ p, v.created = lastCreated p
  | [], h => absurd rfl h
  | [v], _ => ⟨v, by simp, rfl⟩
  | a :: b :: t, _ => by
    obtain ⟨v, hv, he⟩ := lastCreated_mem (b :: t) (by simp)
    exact ⟨v, List.mem_cons_of_mem a hv, by simpa [lastCreated] using he⟩

theorem Totalplays.recent_fetchPages_mkGood (C : Int) :
    ∀ pages : List (List Video), (∀ p ∈ pages, p ≠ []) →
      sortedDesc pages.flatten →
      Totalplays.recent_videos C (Totalplays.fetchPages C (mkGoodOutcomes pages)) =
        Totalplays.recent_videos C pages.flatten := by
  intro pages
  induction pages with
  | nil => intro _ _; rfl
  | cons p rest ih =>
    intro hne hsort
    have hp : p ≠ [] := hne p (by simp)
    cases rest with
    | nil =>
      simp [mkGoodOutcomes, Totalplays.fetchPages, List.isEmpty_iff, hp]
    | cons q rest2 =>
      have hsp := List.pairwise_append.mp (by simpa using hsort)
      by_cases hold : lastCreated p < C
      · have hdrop : Totalplays.recent_videos C (q :: rest2).flatten = [] := by
          obtain ⟨a, ha, hae⟩ := lastCreated_mem p hp
          refine List.filter_eq_nil_iff.mpr ?_
          intro v hv
          have hle : v.created ≤ a.created := hsp.2.2 a ha v hv
          simp only [decide_eq_true_eq]
          omega
        simp [mkGoodOutcomes, Totalplays.fetchPages, List.isEmpty_iff, hp, hold,
          Totalplays.recent_videos, List.filter_append] at hdrop
        simp [mkGoodOutcomes, Totalplays.fetchPages, List.isEmpty_iff, hp, hold,
          Totalplays.recent_videos, List.filter_append, hdrop]
        exact hdrop
      · have ihr := ih (fun x hx => hne x (by simp [hx])) (by exact hsp.2.1)
        simp [mkGoodOutcomes, Totalplays.fetchPages, List.isEmpty_iff, hp, hold,
          Totalplays.recent_videos, List.filter_append] at ihr
        simp [mkGoodOutcomes, Totalplays.fetchPages, List.isEmpty_iff, hp, hold,
          Totalplays.recent_videos, List.filter_append, ihr]

/-- C1: for every cutoff `C` and every descending-sorted item sequence,
however the sequence is split into (non-empty) pages, running
`get_videos_from_folder` and then the caller's cutoff filter yields
exactly the items with timestamp strictly greater than `C`, in original
order — the same as fetching all pages and filtering afterwards, so the
early stop never drops an item that passes the filter. -/
theorem c1_cutoff_pipeline_page_invariance (C : Int) (pages : List (List Video))
    (hne : ∀ p ∈ pages, p ≠ []) (hsort : sortedDesc pages.flatten) :
    Option.map (Totalplays.recent_videos C)
        (Totalplays.get_videos_from_folder (ofOutcomes (mkGoodOutcomes pages)) C
          (pages.length + 1)) =
      some (Totalplays.recent_videos C pages.flatten) := by
  have hcorr := Totalplays.fetchLoop_ofOutcomes C (mkGoodOutcomes pages)
    (mkGoodOutcomes pages) 0 [] (pages.length + 1) (by simp)
    (by rw [length_mkGoodOutcomes]; omega)
  simp only [Nat.zero_add, List.nil_append] at hcorr
  simp [Totalplays.get_videos_from_folder, hcorr,
    Totalplays.recent_fetchPages_mkGood C pages hne hsort]

theorem c1_cutoff_pipeline_page_invariance_witness :
    (∀ p ∈ [[Video.mk 0 10, Video.mk 1 4], [Video.mk 2 2]], p ≠ []) ∧
    sortedDesc [[Video.mk 0 10, Video.mk 1 4], [Video.mk 2 2]].flatten ∧
    Option.map (Totalplays.recent_videos 3)
        (Totalplays.get_videos_from_folder
          (ofOutcomes (mkGoodOutcomes [[Video.mk 0 10, Video.mk 1 4], [Video.mk 2 2]]))
          3 3) =
      some (Totalplays.recent_videos 3
        [[Video.mk 0 10, Video.mk 1 4], [Video.mk 2 2]].flatten) :=
  ⟨by decide, by decide,
    c1_cutoff_pipeline_page_invariance 3 [[Video.mk 0 10, Video.mk 1 4], [Video.mk 2 2]]
      (by decide) (by decide)⟩

theorem AnalyticsScript.videosLoop_ofOutcomes :
    ∀ (l L : List FetchOutcome) (k : Nat) (acc : List Video) (fuel : Nat),
      L.drop k = l → l.length < fuel →
      AnalyticsScript.videosLoop (ofOutcomes L) fuel (k + 1) acc =
        some (acc ++ AnalyticsScript.videoPages l) := by
  intro l
  induction l with
  | nil =>
    intro L k acc fuel hdrop hfuel
    cases fuel with
    | zero => omega
    | succ fuel =>
      have hprov : ofOutcomes L (k + 1) = .resp ⟨200, [], false⟩ := by
        simp [ofOutcomes, hdrop]
      simp [AnalyticsScript.videosLoop, hprov, AnalyticsScript.videoPages]
  | cons o t ih =>
    intro L k acc fuel hdrop hfuel
    cases fuel with
    | zero => simp at hfuel
    | succ fuel =>
      have hprov : ofOutcomes L (k + 1) = o := by
        simp [ofOutcomes, hdrop]
      have hdrop2 : L.drop (k + 1) = t := by
        have : (L.drop k).tail = t := by rw [hdrop]; rfl
        rwa [List.tail_drop] at this
      cases o with
      | exn => simp [AnalyticsScript.videosLoop, hprov, AnalyticsScript.videoPages]
      | resp r =>
        by_cases h200 : r.status = 200
        · by_cases hnext : r.hasNext
          · have hrec := ih L (k + 1) (acc ++ r.data) fuel hdrop2 (by simpa using hfuel)
            simp [AnalyticsScript.videosLoop, hprov, AnalyticsScript.videoPages, h200,
              hnext, hrec, List.append_assoc]
          · simp [AnalyticsScript.videosLoop, hprov, AnalyticsScript.videoPages, h200,
              hnext]
        · simp [AnalyticsScript.videosLoop, hprov, AnalyticsScript.videoPages, h200]

theorem Totalplays.fetchLoop_malformed_none (fuel : Nat) :
    ∀ (page : Nat) (acc : List Video),
      Totalplays.fetchLoop malformedProvider 0 fuel page acc = none := by
  induction fuel with
  | zero => intro page acc; rfl
  | succ fuel ih =>
    intro page acc
    simp [Totalplays.fetchLoop, malformedProvider, lastCreated, ih]

theorem AnalyticsScript.videosLoop_malformed_none (fuel : Nat) :
    ∀ (page : Nat) (acc : List Video),
      AnalyticsScript.videosLoop malformedProvider fuel page acc = none := by
  induction fuel with
  | zero => intro page acc; rfl
  | succ fuel ih =>
    intro page acc
    simp [AnalyticsScript.videosLoop, malformedProvider, ih]

/-- C2 counterexample: neither fetcher enforces any page cap.  On a
malformed provider that forever reports a further non-empty page, both
pagination loops run without ever returning, for every iteration budget —
the claimed guaranteed termination is false. -/
theorem c2_counterexample_no_termination :
    runsForeverTotalplays malformedProvider 0 ∧
      runsForeverAnalytics malformedProvider :=
  ⟨fun fuel => Totalplays.fetchLoop_malformed_none fuel 1 [],
   fun fuel => AnalyticsScript.videosLoop_malformed_none fuel 1 []⟩

/-- C2 amended: no hard cap on total pages is enforced by either fetcher.
Pagination terminates whenever the provider serves only finitely many
meaningful responses (one extra request past the script suffices), but a
malformed provider that forever reports a further non-empty page makes
both loops run forever. -/
theorem c2_amended_termination_only_without_malformed_pages :
    (∀ (L : List FetchOutcome) (C : Int), ∃ vs,
        Totalplays.get_videos_from_folder (ofOutcomes L) C (L.length + 1) = some vs) ∧
    (∀ L : List FetchOutcome, ∃ vs,
        AnalyticsScript.get_videos_from_folder (ofOutcomes L) (L.length + 1) = some vs) ∧
    runsForeverTotalplays malformedProvider 0 ∧
    runsForeverAnalytics malformedProvider :=
  ⟨fun L C => ⟨Totalplays.fetchPages C L,
      Totalplays.fetchLoop_ofOutcomes C L L 0 [] (L.length + 1) (by simp) (by omega)⟩,
   fun L => ⟨AnalyticsScript.videoPages L,
      AnalyticsScript.videosLoop_ofOutcomes L L 0 [] (L.length + 1) (by simp) (by omega)⟩,
   fun fuel => Totalplays.fetchLoop_malformed_none fuel 1 [],
   fun fuel => AnalyticsScript.videosLoop_malformed_none fuel 1 []⟩

theorem Totalplays.fetchPages_good_append (C : Int) :
    ∀ (gs : List (List Video)), (∀ d ∈ gs, d ≠ [] ∧ C ≤ lastCreated d) →
      ∀ tail : List FetchOutcome,
        Totalplays.fetchPages C (gs.map goodOutcome ++ tail) =
          gs.flatten ++ Totalplays.fetchPages C tail := by
  intro gs
  induction gs with
  | nil => intro _ tail; simp
  | cons d gs ih =>
    intro hg tail
    have hd := hg d (by simp)
    have hne : ¬ d.isEmpty := by simpa [List.isEmpty_iff] using hd.1
    have hnold : ¬ lastCreated d < C := by omega
    have ihr := ih (fun x hx => hg x (by simp [hx])) tail
    simp [goodOutcome, Totalplays.fetchPages, hne, hnold, ihr, List.append_assoc]

theorem AnalyticsScript.videoPages_good_append :
    ∀ (gs : List (List Video)) (tail : List FetchOutcome),
      AnalyticsScript.videoPages (gs.map goodOutcome ++ tail) =
        gs.flatten ++ AnalyticsScript.videoPages tail := by
  intro gs
  induction gs with
  | nil => intro tail; simp
  | cons d gs ih =>
    intro tail
    simp [goodOutcome, AnalyticsScript.videoPages, ih, List.append_assoc]

theorem Totalplays.fetchPages_bad (C : Int) (o : FetchOutcome)
    (rest : List FetchOutcome) (h : isBadOutcome o = true) :
    Totalplays.fetchPages C (o :: rest) = [] := by
  cases o with
  | exn => rfl
  | resp r =>
    have : r.status ≠ 200 := by simpa [isBadOutcome] using h
    simp [Totalplays.fetchPages, this]

theorem AnalyticsScript.videoPages_bad (o : FetchOutcome)
    (rest : List FetchOutcome) (h : isBadOutcome o = true) :
    AnalyticsScript.videoPages (o :: rest) = [] := by
  cases o with
  | exn => rfl
  | resp r =>
    have : r.status ≠ 200 := by simpa [isBadOutcome] using h
    simp [AnalyticsScript.videoPages, this]

/-- C3 counterexample: cutoff 3, a single page `[5, 3, 2]` whose last item
(timestamp 2) is older than the cutoff while an earlier item (5) is newer.
The whole page is appended, as claimed — but the subsequent filter also
removes the item with timestamp exactly 3, which is not older than the
cutoff, so the filter does not remove only the strictly older items. -/
theorem c3_counterexample_filter_also_drops_equal :
    lastCreated [Video.mk 0 5, Video.mk 1 3, Video.mk 2 2] < 3 ∧
    (∃ v ∈ [Video.mk 0 5, Video.mk 1 3, Video.mk 2 2], 3 < v.created) ∧
    Totalplays.get_videos_from_folder
        (ofOutcomes (mkGoodOutcomes [[Video.mk 0 5, Video.mk 1 3, Video.mk 2 2]])) 3 2 =
      some [Video.mk 0 5, Video.mk 1 3, Video.mk 2 2] ∧
    ¬ (∀ v ∈ [Video.mk 0 5, Video.mk 1 3, Video.mk 2 2],
        v ∉ Totalplays.recent_videos 3 [Video.mk 0 5, Video.mk 1 3, Video.mk 2 2] →
          v.created < 3) := by
  decide

/-- C3 amended: on a page whose last item is older than the cutoff while
an earlier item on it is newer, `get_videos_from_folder` appends all of
that page's items before stopping pagination, and the subsequent cutoff
filter removes exactly the items whose timestamp is older than **or equal
to** the cutoff (it keeps precisely the strictly newer items). -/
theorem c3_amended_whole_page_kept_filter_drops_not_newer (C : Int)
    (gs : List (List Video)) (p : List Video) (rest : List FetchOutcome)
    (hg : ∀ d ∈ gs, d ≠ [] ∧ C ≤ lastCreated d)
    (hp : p ≠ []) (hlast : lastCreated p < C) (hnewer : ∃ v ∈ p, C < v.created) :
    Totalplays.get_videos_from_folder
        (ofOutcomes (gs.map goodOutcome ++ goodOutcome p :: rest)) C
        ((gs.map goodOutcome ++ goodOutcome p :: rest).length + 1) =
      some (gs.flatten ++ p) ∧
    ∀ v ∈ gs.flatten ++ p,
      (v ∉ Totalplays.recent_videos C (gs.flatten ++ p) ↔ v.created ≤ C) := by
  constructor
  · have hcorr := Totalplays.fetchLoop_ofOutcomes C
      (gs.map goodOutcome ++ goodOutcome p :: rest)
      (gs.map goodOutcome ++ goodOutcome p :: rest) 0 []
      ((gs.map goodOutcome ++ goodOutcome p :: rest).length + 1) (by simp) (by omega)
    have hpe : ¬ p.isEmpty := by simpa [List.isEmpty_iff] using hp
    rw [Totalplays.get_videos_from_folder]
    rw [show (0 : Nat) + 1 = 1 from rfl] at hcorr
    rw [hcorr, Totalplays.fetchPages_good_append C gs hg]
    simp [goodOutcome, Totalplays.fetchPages, hpe, hlast]
  · intro v hv
    simp only [Totalplays.recent_videos, List.mem_filter, decide_eq_true_eq, hv,
      true_and, not_lt]

theorem c3_amended_whole_page_kept_filter_drops_not_newer_witness :
    (∀ d ∈ ([] : List (List Video)), d ≠ [] ∧ (3 : Int) ≤ lastCreated d) ∧
    ([Video.mk 0 5, Video.mk 1 3, Video.mk 2 2] : List Video) ≠ [] ∧
    lastCreated [Video.mk 0 5, Video.mk 1 3, Video.mk 2 2] < 3 ∧
    (∃ v ∈ [Video.mk 0 5, Video.mk 1 3, Video.mk 2 2], (3 : Int) < v.created) ∧
    (Totalplays.get_videos_from_folder
        (ofOutcomes [goodOutcome [Video.mk 0 5, Video.mk 1 3, Video.mk 2 2]]) 3 2 =
      some [Video.mk 0 5, Video.mk 1 3, Video.mk 2 2] ∧
    ∀ v ∈ [Video.mk 0 5, Video.mk 1 3, Video.mk 2 2],
      (v ∉ Totalplays.recent_videos 3 [Video.mk 0 5, Video.mk 1 3, Video.mk 2 2] ↔
        v.created ≤ 3)) :=
  ⟨by decide, by decide, by decide, by decide,
    c3_amended_whole_page_kept_filter_drops_not_newer 3 []
      [Video.mk 0 5, Video.mk 1 3, Video.mk 2 2] []
      (by decide) (by decide) (by decide) (by decide)⟩

/-- C4: in every run where the pages before some page `N` are well-formed
and page `N`'s fetch yields a non-200 status or raises (an exception at
the request or JSON-decode boundary), both `get_videos_from_folder`
variants stop pagination there and return exactly the items collected
from the earlier pages — a partial result instead of a propagated
failure. -/
theorem c4_fetch_failure_partial_result (C : Int) (gs : List (List Video))
    (bad : FetchOutcome) (rest : List FetchOutcome)
    (hbad : isBadOutcome bad = true)
    (hg : ∀ d ∈ gs, d ≠ [] ∧ C ≤ lastCreated d) :
    Totalplays.get_videos_from_folder
        (ofOutcomes (gs.map goodOutcome ++ bad :: rest)) C
        ((gs.map goodOutcome ++ bad :: rest).length + 1) = some gs.flatten ∧
    AnalyticsScript.get_videos_from_folder
        (ofOutcomes (gs.map goodOutcome ++ bad :: rest))
        ((gs.map goodOutcome ++ bad :: rest).length + 1) = some gs.flatten := by
  constructor
  · have hcorr := Totalplays.fetchLoop_ofOutcomes C
      (gs.map goodOutcome ++ bad :: rest) (gs.map goodOutcome ++ bad :: rest) 0 []
      ((gs.map goodOutcome ++ bad :: rest).length + 1) (by simp) (by omega)
    rw [Totalplays.get_videos_from_folder]
    rw [show (0 : Nat) + 1 = 1 from rfl] at hcorr
    rw [hcorr, Totalplays.fetchPages_good_append C gs hg,
      Totalplays.fetchPages_bad C bad rest hbad]
    simp
  · have hcorr := AnalyticsScript.videosLoop_ofOutcomes
      (gs.map goodOutcome ++ bad :: rest) (gs.map goodOutcome ++ bad :: rest) 0 []
      ((gs.map goodOutcome ++ bad :: rest).length + 1) (by simp) (by omega)
    rw [AnalyticsScript.get_videos_from_folder]
    rw [show (0 : Nat) + 1 = 1 from rfl] at hcorr
    rw [hcorr, AnalyticsScript.videoPages_good_append gs,
      AnalyticsScript.videoPages_bad bad rest hbad]
    simp

theorem c4_fetch_failure_partial_result_witness :
    isBadOutcome FetchOutcome.exn = true ∧
    (∀ d ∈ [[Video.mk 0 5]], d ≠ [] ∧ (0 : Int) ≤ lastCreated d) ∧
    (Totalplays.get_videos_from_folder
        (ofOutcomes [goodOutcome [Video.mk 0 5], FetchOutcome.exn]) 0 3 =
      some [Video.mk 0 5] ∧
    AnalyticsScript.get_videos_from_folder
        (ofOutcomes [goodOutcome [Video.mk 0 5], FetchOutcome.exn]) 3 =
      some [Video.mk 0 5]) :=
  ⟨by decide, by decide,
    c4_fetch_failure_partial_result 0 [[Video.mk 0 5]] FetchOutcome.exn []
      (by decide) (by decide)⟩

theorem AnalyticsScript.analyticsLoop_good (P : Nat) (rest : List AOutcome) :
    ∀ (ds : List (List ARecord)) (L : List AOutcome) (k t : Nat)
      (acc : List ARecord) (logs : List ALog) (fuel : Nat),
      (∀ d ∈ ds, d ≠ []) →
      L.drop k = ds.map (goodAOutcome P) ++ AOutcome.resp ⟨200, [], some P⟩ :: rest →
      k + 1 ≤ t → k + ds.length + 1 ≤ P → ds.length + 1 ≤ fuel →
      ∃ logs2, AnalyticsScript.analyticsLoop (ofAOutcomes L) fuel (k + 1) t acc logs =
        some (acc ++ ds.flatten, logs2) := by
  intro ds
  induction ds with
  | nil =>
    intro L k t acc logs fuel _ hdrop ht _ hfuel
    cases fuel with
    | zero => omega
    | succ fuel =>
      have hprov : ofAOutcomes L (k + 1) = .resp ⟨200, [], some P⟩ := by
        simp [ofAOutcomes, hdrop]
      refine ⟨logs ++ [.noData (k + 1)], ?_⟩
      simp [AnalyticsScript.analyticsLoop, ht, hprov]
  | cons d ds ih =>
    intro L k t acc logs fuel hne hdrop ht hP hfuel
    cases fuel with
    | zero => simp at hfuel
    | succ fuel =>
      have hprov : ofAOutcomes L (k + 1) = .resp ⟨200, d, some P⟩ := by
        simp [ofAOutcomes, hdrop, goodAOutcome]
      have hdrop2 : L.drop (k + 1) =
          ds.map (goodAOutcome P) ++ AOutcome.resp ⟨200, [], some P⟩ :: rest := by
        have : (L.drop k).tail = ds.map (goodAOutcome P) ++
            AOutcome.resp ⟨200, [], some P⟩ :: rest := by
          rw [hdrop]; rfl
        rwa [List.tail_drop] at this
      have hd : ¬ d.isEmpty := by
        simpa [List.isEmpty_iff] using hne d (by simp)
      obtain ⟨logs2, hrec⟩ := ih L (k + 1) P (acc ++ d)
        (logs ++ [.fetchedPage (k + 1) P]) fuel
        (fun x hx => hne x (by simp [hx])) hdrop2 (by simp at hP ⊢; omega)
        (by simp at hP ⊢; omega) (by simpa using hfuel)
      refine ⟨logs2, ?_⟩
      simp only [AnalyticsScript.analyticsLoop, ht, if_pos, hprov, hd]
      simp [AnalyticsScript.analyticsLoop, ht, hprov, hd, hrec, List.append_assoc]

/-- C5: in every run where pages before `N` are well-formed and page `N`
returns zero items while the pagination metadata still claims more pages
(a `next` link for the listing fetcher; a reported page total `P`
exceeding `N` for the metrics fetcher), the fetcher stops at page `N` and
returns exactly the items collected from the pages before `N`. -/
theorem c5_empty_page_stops_with_earlier_items (C : Int)
    (gs : List (List Video)) (rest : List FetchOutcome)
    (ds : List (List ARecord)) (P : Nat) (restA : List AOutcome)
    (hg : ∀ d ∈ gs, d ≠ [] ∧ C ≤ lastCreated d)
    (hds : ∀ d ∈ ds, d ≠ []) (hP : ds.length + 1 < P) :
    Totalplays.get_videos_from_folder
        (ofOutcomes (gs.map goodOutcome ++ FetchOutcome.resp ⟨200, [], true⟩ :: rest)) C
        ((gs.map goodOutcome ++ FetchOutcome.resp ⟨200, [], true⟩ :: rest).length + 1) =
      some gs.flatten ∧
    Option.map Prod.fst
        (AnalyticsScript.get_video_analytics
          (ofAOutcomes (ds.map (goodAOutcome P) ++ AOutcome.resp ⟨200, [], some P⟩ :: restA))
          (ds.length + 1)) =
      some ds.flatten := by
  constructor
  · have hcorr := Totalplays.fetchLoop_ofOutcomes C
      (gs.map goodOutcome ++ FetchOutcome.resp ⟨200, [], true⟩ :: rest)
      (gs.map goodOutcome ++ FetchOutcome.resp ⟨200, [], true⟩ :: rest) 0 []
      ((gs.map goodOutcome ++ FetchOutcome.resp ⟨200, [], true⟩ :: rest).length + 1)
      (by simp) (by omega)
    rw [Totalplays.get_videos_from_folder]
    rw [show (0 : Nat) + 1 = 1 from rfl] at hcorr
    rw [hcorr, Totalplays.fetchPages_good_append C gs hg]
    simp [Totalplays.fetchPages]
  · obtain ⟨logs2, hrun⟩ := AnalyticsScript.analyticsLoop_good P restA ds
      (ds.map (goodAOutcome P) ++ AOutcome.resp ⟨200, [], some P⟩ :: restA)
      0 1 [] [] (ds.length + 1) hds (by simp) (by omega) (by omega) (by omega)
    rw [AnalyticsScript.get_video_analytics]
    rw [show (0 : Nat) + 1 = 1 from rfl] at hrun
    rw [hrun]
    simp

theorem c5_empty_page_stops_with_earlier_items_witness :
    (∀ d ∈ [[Video.mk 0 5]], d ≠ [] ∧ (0 : Int) ≤ lastCreated d) ∧
    (∀ d ∈ ([[[("plays", JValue.leaf (JLeaf.num 3))]]] : List (List ARecord)), d ≠ []) ∧
    (([[[("plays", JValue.leaf (JLeaf.num 3))]]] : List (List ARecord)).length + 1 < 3) ∧
    (Totalplays.get_videos_from_folder
        (ofOutcomes [goodOutcome [Video.mk 0 5], FetchOutcome.resp ⟨200, [], true⟩]) 0 3 =
      some [Video.mk 0 5] ∧
    Option.map Prod.fst
        (AnalyticsScript.get_video_analytics
          (ofAOutcomes [goodAOutcome 3 [[("plays", JValue.leaf (JLeaf.num 3))]],
            AOutcome.resp ⟨200, [], some 3⟩]) 2) =
      some [[("plays", JValue.leaf (JLeaf.num 3))]]) :=
  ⟨by decide, by decide, by decide,
    c5_empty_page_stops_with_earlier_items 0 [[Video.mk 0 5]] []
      [[[("plays", JValue.leaf (JLeaf.num 3))]]] 3 []
      (by decide) (by decide) (by decide)⟩

/-- C6: when the metrics endpoint answers HTTP 403 on the first call,
`get_video_analytics` returns an empty record sequence together with the
distinct `Access Denied (403)` diagnostic — an authorization-class signal
different from the generic fetch-error diagnostic, which carries the
offending status code instead. -/
theorem c6_forbidden_first_call_empty_and_distinct (r : APageResp)
    (rest : List AOutcome) (h403 : r.status = 403) :
    AnalyticsScript.get_video_analytics (ofAOutcomes (AOutcome.resp r :: rest))
        (rest.length + 2) =
      some ([], [ALog.accessDenied]) ∧
    ∀ s : Nat, ALog.accessDenied ≠ ALog.fetchError s := by
  constructor
  · have hprov : ofAOutcomes (AOutcome.resp r :: rest) 1 = .resp r := rfl
    rw [AnalyticsScript.get_video_analytics]
    simp [AnalyticsScript.analyticsLoop, hprov, h403]
  · intro s
    exact fun h => ALog.noConfusion h

theorem c6_forbidden_first_call_empty_and_distinct_witness :
    (APageResp.mk 403 [] none).status = 403 ∧
    (AnalyticsScript.get_video_analytics
        (ofAOutcomes [AOutcome.resp ⟨403, [], none⟩]) 2 =
      some ([], [ALog.accessDenied]) ∧
    ∀ s : Nat, ALog.accessDenied ≠ ALog.fetchError s) :=
  ⟨rfl, c6_forbidden_first_call_empty_and_distinct ⟨403, [], none⟩ [] rfl⟩

/-- C7: in every run that collects zero items, both scripts print only
the no-data message: the report-writing step is skipped and no email of
any kind is sent, so exactly the configured "no email" variant happens —
never a notice email as well, and never a report email. -/
theorem c7_zero_items_no_report_no_email
    (report_data : List Totalplays.ReportRow) (excelOk : Bool)
    (analytics_data : List ARecord)
    (h1 : report_data = []) (h2 : analytics_data = []) :
    Totalplays.mainEvents report_data excelOk = [RunEvent.noDataMsg] ∧
    AnalyticsScript.mainEvents analytics_data = [RunEvent.noDataMsg] ∧
    RunEvent.reportEmail ∉ Totalplays.mainEvents report_data excelOk ∧
    RunEvent.reportWritten ∉ Totalplays.mainEvents report_data excelOk ∧
    RunEvent.reportEmail ∉ AnalyticsScript.mainEvents analytics_data ∧
    RunEvent.reportWritten ∉ AnalyticsScript.mainEvents analytics_data := by
  subst h1 h2
  refine ⟨rfl, rfl, ?_, ?_, ?_, ?_⟩ <;>
    simp [Totalplays.mainEvents, AnalyticsScript.mainEvents]

theorem c7_zero_items_no_report_no_email_witness :
    ([] : List Totalplays.ReportRow) = [] ∧ ([] : List ARecord) = [] ∧
    (Totalplays.mainEvents [] true = [RunEvent.noDataMsg] ∧
    AnalyticsScript.mainEvents [] = [RunEvent.noDataMsg] ∧
    RunEvent.reportEmail ∉ Totalplays.mainEvents [] true ∧
    RunEvent.reportWritten ∉ Totalplays.mainEvents [] true ∧
    RunEvent.reportEmail ∉ AnalyticsScript.mainEvents [] ∧
    RunEvent.reportWritten ∉ AnalyticsScript.mainEvents []) :=
  ⟨rfl, rfl, c7_zero_items_no_report_no_email [] true [] rfl rfl⟩

theorem AnalyticsScript.mem_foldl_addColumn :
    ∀ (cs : List String) (df : AnalyticsScript.DataFrame) (c : String),
      (c ∈ df.cols ∨ c ∈ cs) →
      c ∈ (cs.foldl AnalyticsScript.addColumn df).cols := by
  intro cs
  induction cs with
  | nil =>
    intro df c hc
    simpa using hc.resolve_right (by simp)
  | cons a t ih =>
    intro df c hc
    have hstep : c ∈ (AnalyticsScript.addColumn df a).cols ∨ c ∈ t := by
      rcases hc with hdf | hat
      · left
        by_cases ha : a ∈ df.cols <;> simp [AnalyticsScript.addColumn, ha, hdf]
      · rcases List.mem_cons.mp hat with rfl | ht
        · left
          by_cases ha : c ∈ df.cols <;> simp [AnalyticsScript.addColumn, ha]
        · right; exact ht
    simpa using ih (AnalyticsScript.addColumn df a) c hstep

theorem AnalyticsScript.rows_foldl_addColumn :
    ∀ (cs : List String) (df : AnalyticsScript.DataFrame),
      (cs.foldl AnalyticsScript.addColumn df).rows = df.rows := by
  intro cs
  induction cs with
  | nil => intro df; rfl
  | cons a t ih =>
    intro df
    rw [List.foldl_cons, ih]
    by_cases ha : a ∈ df.cols <;> simp [AnalyticsScript.addColumn, ha]

/-- C8: for every collected analytics dataset, after the column-fill loop
every configured dimension and metric column is present in the table, and
for every row reading that column yields a defined value — the stored one
or the null/NaN marker — never a missing column. -/
theorem c8_configured_columns_always_present (records : List ARecord)
    (c : String) (hc : c ∈ AnalyticsScript.DIMENSIONS ++ AnalyticsScript.METRICS) :
    c ∈ (AnalyticsScript.fillColumns (AnalyticsScript.mkDataFrame records)).cols ∧
    ∀ row ∈ (AnalyticsScript.fillColumns (AnalyticsScript.mkDataFrame records)).rows,
      ∃ v, AnalyticsScript.getCell
        (AnalyticsScript.fillColumns (AnalyticsScript.mkDataFrame records)) row c =
          some v := by
  have hmem : c ∈ (AnalyticsScript.fillColumns (AnalyticsScript.mkDataFrame records)).cols :=
    AnalyticsScript.mem_foldl_addColumn _ _ c (Or.inr hc)
  refine ⟨hmem, ?_⟩
  intro row _
  refine ⟨(List.lookup c row).getD (JValue.leaf JLeaf.null), ?_⟩
  simp [AnalyticsScript.getCell, hmem]

theorem c8_configured_columns_always_present_witness :
    "date" ∈ AnalyticsScript.DIMENSIONS ++ AnalyticsScript.METRICS ∧
    ("date" ∈ (AnalyticsScript.fillColumns
        (AnalyticsScript.mkDataFrame [[("plays", JValue.leaf (JLeaf.num 1))]])).cols ∧
    ∀ row ∈ (AnalyticsScript.fillColumns
        (AnalyticsScript.mkDataFrame [[("plays", JValue.leaf (JLeaf.num 1))]])).rows,
      ∃ v, AnalyticsScript.getCell
        (AnalyticsScript.fillColumns
          (AnalyticsScript.mkDataFrame [[("plays", JValue.leaf (JLeaf.num 1))]]))
        row "date" = some v) :=
  ⟨by decide,
    c8_configured_columns_always_present [[("plays", JValue.leaf (JLeaf.num 1))]]
      "date" (by decide)⟩

/-- C9: in the fallback path, for every video whose single-item stats
fetch succeeds (yielding a dict with a parseable `created_time` and a
well-formed `stats` value), the dict is mapped into a report row with all
four fields present, and every unavailable field gets its defined
default: plays defaults to 0 (whether `stats` is absent or lacks a
`plays` entry), and name and link default to the `N/A` marker — nothing
is silently omitted from the row. -/
theorem c9_fallback_row_defaults (o : SimpleOutcome) (stats_data : ARecord)
    (t : Int)
    (_hsucc : Totalplays.get_simple_video_stats o = some stats_data)
    (hct : List.lookup "created_time" stats_data = some (JValue.leaf (JLeaf.time t)))
    (hwf : Totalplays.statsWellFormed stats_data = true) :
    ∃ row, Totalplays.mkReportRow stats_data = some row ∧
      row.uploadDate = t ∧
      (List.lookup "name" stats_data = none →
        row.videoName = JValue.leaf (JLeaf.str "N/A")) ∧
      (List.lookup "link" stats_data = none →
        row.link = JValue.leaf (JLeaf.str "N/A")) ∧
      (List.lookup "stats" stats_data = none → row.totalPlays = JLeaf.num 0) ∧
      (∀ fs, List.lookup "stats" stats_data = some (JValue.obj fs) →
        List.lookup "plays" fs = none → row.totalPlays = JLeaf.num 0) := by
  cases hstats : List.lookup "stats" stats_data with
  | none =>
    refine ⟨⟨(List.lookup "name" stats_data).getD (JValue.leaf (JLeaf.str "N/A")),
      JLeaf.num 0, t,
      (List.lookup "link" stats_data).getD (JValue.leaf (JLeaf.str "N/A"))⟩,
      ?_, rfl, ?_, ?_, ?_, ?_⟩
    · simp [Totalplays.mkReportRow, hct, hstats]
    · intro h; simp [h]
    · intro h; simp [h]
    · intro _; rfl
    · intro fs h; simp [hstats] at h
  | some v =>
    cases v with
    | leaf x => simp [Totalplays.statsWellFormed, hstats] at hwf
    | obj fs =>
      refine ⟨⟨(List.lookup "name" stats_data).getD (JValue.leaf (JLeaf.str "N/A")),
        (List.lookup "plays" fs).getD (JLeaf.num 0), t,
        (List.lookup "link" stats_data).getD (JValue.leaf (JLeaf.str "N/A"))⟩,
        ?_, rfl, ?_, ?_, ?_, ?_⟩
      · simp [Totalplays.mkReportRow, hct, hstats]
      · intro h; simp [h]
      · intro h; simp [h]
      · intro h; simp [hstats] at h
      · intro fs2 h hplays
        simp only [hstats, Option.some.injEq, JValue.obj.injEq] at h
        subst h
        simp [hplays]

theorem c9_fallback_row_defaults_witness :
    Totalplays.get_simple_video_stats
        (SimpleOutcome.resp 200 [("created_time", JValue.leaf (JLeaf.time 7))]) =
      some [("created_time", JValue.leaf (JLeaf.time 7))] ∧
    List.lookup "created_time" [("created_time", JValue.leaf (JLeaf.time 7))] =
      some (JValue.leaf (JLeaf.time 7)) ∧
    Totalplays.statsWellFormed [("created_time", JValue.leaf (JLeaf.time 7))] = true ∧
    (∃ row, Totalplays.mkReportRow [("created_time", JValue.leaf (JLeaf.time 7))] =
        some row ∧
      row.uploadDate = 7 ∧
      (List.lookup "name" [("created_time", JValue.leaf (JLeaf.time 7))] = none →
        row.videoName = JValue.leaf (JLeaf.str "N/A")) ∧
      (List.lookup "link" [("created_time", JValue.leaf (JLeaf.time 7))] = none →
        row.link = JValue.leaf (JLeaf.str "N/A")) ∧
      (List.lookup "stats" [("created_time", JValue.leaf (JLeaf.time 7))] = none →
        row.totalPlays = JLeaf.num 0) ∧
      (∀ fs, List.lookup "stats" [("created_time", JValue.leaf (JLeaf.time 7))] =
          some (JValue.obj fs) →
        List.lookup "plays" fs = none → row.totalPlays = JLeaf.num 0)) :=
  ⟨by decide, by decide, by decide,
    c9_fallback_row_defaults
      (SimpleOutcome.resp 200 [("created_time", JValue.leaf (JLeaf.time 7))])
      [("created_time", JValue.leaf (JLeaf.time 7))] 7
      (by decide) (by decide) (by decide)⟩

theorem Livestream.le_foldl_max :
    ∀ (xs : List Int) (x : Int), x ≤ xs.foldl max x := by
  intro xs
  induction xs with
  | nil => intro x; exact le_refl x
  | cons a t ih =>
    intro x
    calc x ≤ max x a := le_max_left x a
      _ ≤ (t.foldl max (max x a)) := ih (max x a)

theorem Livestream.mem_le_foldl_max :
    ∀ (xs : List Int) (x y : Int), y ∈ xs → y ≤ xs.foldl max x := by
  intro xs
  induction xs with
  | nil => intro x y hy; cases hy
  | cons a t ih =>
    intro x y hy
    rcases List.mem_cons.mp hy with rfl | ht
    · calc y ≤ max x y := le_max_right x y
        _ ≤ (t.foldl max (max x y)) := Livestream.le_foldl_max t (max x y)
    · exact ih (max x a) y ht

theorem Livestream.foldl_max_mem :
    ∀ (xs : List Int) (x : Int), xs.foldl max x = x ∨ xs.foldl max x ∈ xs := by
  intro xs
  induction xs with
  | nil => intro x; left; rfl
  | cons a t ih =>
    intro x
    rcases ih (max x a) with h | h
    · rcases max_choice x a with hx | ha
      · left; rw [List.foldl_cons, h, hx]
      · right; rw [List.foldl_cons, h, ha]; exact List.mem_cons_self a t
    · right; exact List.mem_cons_of_mem a h

/-- C10: `get_peak_viewers` returns 0 on the empty list, and on every
non-empty list it returns the maximum of the `concurrent_viewers` values:
the result is the count of some input point and is at least every input
point's count. -/
theorem c10_get_peak_viewers_is_max :
    Livestream.get_peak_viewers [] = 0 ∧
    ∀ l : List Livestream.DataPoint, l ≠ [] →
      ((∃ p ∈ l, Livestream.get_peak_viewers l = p.concurrent_viewers) ∧
       ∀ p ∈ l, p.concurrent_viewers ≤ Livestream.get_peak_viewers l) := by
  refine ⟨rfl, ?_⟩
  intro l hl
  match l with
  | [] => exact absurd rfl hl
  | d :: t =>
    have hpeak : Livestream.get_peak_viewers (d :: t) =
        (t.map (fun p => p.concurrent_viewers)).foldl max d.concurrent_viewers := by
      simp [Livestream.get_peak_viewers, Livestream.listMax]
    constructor
    · rcases Livestream.foldl_max_mem (t.map (fun p => p.concurrent_viewers))
        d.concurrent_viewers with h | h
      · exact ⟨d, List.mem_cons_self d t, by rw [hpeak, h]⟩
      · obtain ⟨p, hp, hpe⟩ := List.mem_map.mp h
        exact ⟨p, List.mem_cons_of_mem d hp, by rw [hpeak, hpe]⟩
    · intro p hp
      rcases List.mem_cons.mp hp with rfl | ht
      · rw [hpeak]; exact Livestream.le_foldl_max _ _
      · rw [hpeak]
        exact Livestream.mem_le_foldl_max _ _ _
          (List.mem_map_of_mem (fun p => p.concurrent_viewers) ht)

theorem c10_get_peak_viewers_is_max_witness :
    ([Livestream.DataPoint.mk 0 5, Livestream.DataPoint.mk 1 9] :
      List Livestream.DataPoint) ≠ [] ∧
    ((∃ p ∈ [Livestream.DataPoint.mk 0 5, Livestream.DataPoint.mk 1 9],
        Livestream.get_peak_viewers
          [Livestream.DataPoint.mk 0 5, Livestream.DataPoint.mk 1 9] =
          p.concurrent_viewers) ∧
     ∀ p ∈ [Livestream.DataPoint.mk 0 5, Livestream.DataPoint.mk 1 9],
       p.concurrent_viewers ≤ Livestream.get_peak_viewers
         [Livestream.DataPoint.mk 0 5, Livestream.DataPoint.mk 1 9]) :=
  ⟨by decide,
    c10_get_peak_viewers_is_max.2
      [Livestream.DataPoint.mk 0 5, Livestream.DataPoint.mk 1 9] (by decide)⟩
